import Mathlib

/-!
# Verification of the goruby object system (package `object`)

Shallow embedding of `src/object/ruby_object.go` and `src/object/kernel.go`:
the tagged value type, class/eigenclass resolution chains, method records,
environments, user-defined functions (`Function.Call`) and the Kernel
builtins (`kernelPuts`, `kernelMethods`, `kernelClass`, `kernelRequire`).

Go interface values that may be `nil` are embedded as `Option`; Go functions
returning `(RubyObject, error)` are embedded as `Except RubyError RubyObject`;
a Go panic (failed unchecked type assertion) is embedded as `Option.none`
at the outer level. Side effects of `fmt.Println` are made explicit as a
returned output string.
-/

set_option autoImplicit false

namespace Goruby

/-- Type tag of an object, `type Type string` in `ruby_object.go`. -/
abbrev ObjType := String

/-- Method visibility, from the spec's visibility set {public, private}. -/
inductive MethodVisibility where
  | publicMethod
  | privateMethod
  deriving DecidableEq, Repr

/-- Modelled from the spec: a `RubyMethod` table entry is "a capability
record {arity: expected parameter count or any, visibility}".  The
implementation of `RubyMethod`, `withArity`, `publicMethod` and
`privateMethod` is not under `src/`; only the visibility and arity are
observable in the claims about method tables, so the record carries those
plus an identifier distinguishing distinct method bodies. -/
structure RubyMethod where
  visibility : MethodVisibility
  arity : Option Nat
  bodyId : Nat
  deriving DecidableEq, Repr

/-- A class-like entity: either an ordinary class/module (name, method
table, optional superclass — `RubyClass` in the source with `Methods()` and
`SuperClass()`), or an eigenclass.  Modelled from the spec for the
eigenclass part (its Go code is not under `src/`): an eigenclass holds
"only methods explicitly added after creation" and "wraps that object's
original Class as its superclass"; `Eigenclass.class()` returns the
original object's class.  Superclass chains are acyclic by construction
(the spec: "no cycles permitted — superclass chains must be acyclic,
enforced by construction"), which the inductive structure enforces. -/
inductive RubyClass where
  | ordinary (name : String) (methods : List (String × RubyMethod))
      (superclass : Option RubyClass)
  | eigen (methods : List (String × RubyMethod)) (wrapped : RubyClass)

/-- `Methods()` of a class-like entity. -/
def RubyClass.Methods : RubyClass → List (String × RubyMethod)
  | .ordinary _ ms _ => ms
  | .eigen ms _ => ms

/-- `SuperClass()` of a class-like entity: an ordinary class yields its
optional superclass; an eigenclass yields the wrapped original class. -/
def RubyClass.SuperClass : RubyClass → Option RubyClass
  | .ordinary _ _ sc => sc
  | .eigen _ w => some w

/-- An AST method body (`*ast.BlockStatement`), external to the object
package; only its textual form is observable here. -/
structure BlockStatement where
  src : String
  deriving DecidableEq, Repr

mutual
/-- The tagged value type `RubyObject` of `ruby_object.go`, with the
variants the source and the spec's data model list: nil, boolean, integer,
string, symbol, array, builtin, return-value wrapper, require statement,
user function, self wrapper, class/module object, and the
`extendedObject` wrapper pairing an object with its eigenclass (held as
its method table plus the wrapped original class). -/
inductive RubyObject where
  | nilObj
  | boolean (b : Bool)
  | integer (n : Int)
  | string (s : String)
  | symbol (s : String)
  | array (elems : List RubyObject)
  | builtin
  | returnValue (v : RubyObject)
  | requireStatement (name : String)
  | functionObj (parameters : List String) (body : BlockStatement)
      (env : Environment) (visibility : MethodVisibility)
  | selfObj (o : RubyObject)
  | classObject (c : RubyClass)
  | extended (o : RubyObject) (eigenMethods : List (String × RubyMethod))
      (wrapped : RubyClass)

/-- Modelled from the spec (the `Environment` Go file is not under `src/`):
"a mapping from identifier to Value (keys unique) plus an optional
enclosing Environment"; lookups consult the innermost store first and
"fail past the outermost". -/
inductive Environment where
  | mk (store : List (String × RubyObject)) (outer : Option Environment)
end

namespace Environment

/-- The innermost store of an environment. -/
def store : Environment → List (String × RubyObject)
  | .mk s _ => s

/-- The enclosing environment, if any. -/
def outer : Environment → Option Environment
  | .mk _ o => o

/-- Modelled from the spec: `NewEnclosedEnvironment` creates a fresh empty
scope whose enclosing environment is the given one ("created fresh per
function invocation, extending the function's captured definition-time
Environment"). -/
def NewEnclosedEnvironment (e : Environment) : Environment := .mk [] (some e)

/-- Modelled from the spec: `Set` binds an identifier in the innermost
store (a fresh invocation environment receives "positional bindings for
each parameter"); a later binding for the same key shadows an earlier
one. -/
def Set (e : Environment) (k : String) (v : RubyObject) : Environment :=
  .mk ((k, v) :: e.store) e.outer

/-- Modelled from the spec: `Get` looks an identifier up in the innermost
store first and otherwise defers to the enclosing environment; "lookups
fail past the outermost". -/
def Get : Environment → String → Option RubyObject
  | .mk s none, k => s.lookup k
  | .mk s (some e), k => (s.lookup k).or (Get e k)

end Environment

/-! ## Type tags (`ruby_object.go` lines 13–41) -/

def EIGENCLASS_OBJ : ObjType := "EIGENCLASS"
def FUNCTION_OBJ : ObjType := "FUNCTION"
def RETURN_VALUE_OBJ : ObjType := "RETURN_VALUE"
def REQUIRE_STATEMENT_OBJ : ObjType := "REQUIRE_STATEMENT"
def OBJECT_OBJ : ObjType := "OBJECT"
def ARRAY_OBJ : ObjType := "ARRAY"
def INTEGER_OBJ : ObjType := "INTEGER"
def STRING_OBJ : ObjType := "STRING"
def SYMBOL_OBJ : ObjType := "SYMBOL"
def BOOLEAN_OBJ : ObjType := "BOOLEAN"
def NIL_OBJ : ObjType := "NIL"
def MODULE_OBJ : ObjType := "MODULE"
def BUILTIN_OBJ : ObjType := "BUILTIN"
def SELF : ObjType := "SELF"

/-- `Type()` of a value.  The cases for `Builtin`, `ReturnValue`,
`RequireStatement` (which returns `RETURN_VALUE_OBJ`, `ruby_object.go`
line 110), `Function` and `Self` are from the source.  `extendedObject`
does not override `Type()`, so Go struct embedding promotes the wrapped
object's `Type()`.  The primitive variants' `Type()` methods are not under
`src/` and are modelled from the spec's tag constants (`INTEGER_OBJ` for
integers, and so on); class/module objects report `MODULE_OBJ` and
eigenclasses `EIGENCLASS_OBJ` — the claims only need that no `Type()`
yields `REQUIRE_STATEMENT_OBJ`. -/
def typeOf : RubyObject → ObjType
  | .nilObj => NIL_OBJ
  | .boolean _ => BOOLEAN_OBJ
  | .integer _ => INTEGER_OBJ
  | .string _ => STRING_OBJ
  | .symbol _ => SYMBOL_OBJ
  | .array _ => ARRAY_OBJ
  | .builtin => BUILTIN_OBJ
  | .returnValue _ => RETURN_VALUE_OBJ
  | .requireStatement _ => RETURN_VALUE_OBJ
  | .functionObj _ _ _ _ => FUNCTION_OBJ
  | .selfObj _ => SELF
  | .classObject (.ordinary _ _ _) => MODULE_OBJ
  | .classObject (.eigen _ _) => EIGENCLASS_OBJ
  | .extended o _ _ => typeOf o

/-! ## Built-in classes

Modelled from the spec (their Go definitions are not under `src/`): every
user-visible variant has a non-nil governing class; "the Kernel module is
installed as the superclass-chain root itself". -/

/-- `kernelMethodSet` from `kernel.go` lines 25–31: `nil?`, `methods` and
`class` are public with arity 0, `puts` is private with variadic arity,
`require` is private with arity 1. -/
def kernelMethodSet : List (String × RubyMethod) :=
  [("nil?", ⟨.publicMethod, some 0, 0⟩),
   ("methods", ⟨.publicMethod, some 0, 1⟩),
   ("class", ⟨.publicMethod, some 0, 2⟩),
   ("puts", ⟨.privateMethod, none, 3⟩),
   ("require", ⟨.privateMethod, some 1, 4⟩)]

/-- Modelled from the spec: the Kernel module, root of the chain. -/
def kernelModule : RubyClass := .ordinary "Kernel" kernelMethodSet none

/-- Modelled from the spec: the `Object` class, below Kernel. -/
def objectClass : RubyClass := .ordinary "Object" [] (some kernelModule)

/-- Modelled from the spec: class of nil. -/
def nilClass : RubyClass := .ordinary "NilClass" [] (some objectClass)

/-- Modelled from the spec: class of booleans. -/
def booleanClass : RubyClass := .ordinary "Boolean" [] (some objectClass)

/-- Modelled from the spec: class of integers. -/
def integerClass : RubyClass := .ordinary "Integer" [] (some objectClass)

/-- Modelled from the spec: class of strings. -/
def stringClass : RubyClass := .ordinary "String" [] (some objectClass)

/-- Modelled from the spec: class of symbols. -/
def symbolClass : RubyClass := .ordinary "Symbol" [] (some objectClass)

/-- Modelled from the spec: class of arrays. -/
def arrayClass : RubyClass := .ordinary "Array" [] (some objectClass)

/-- Modelled from the spec: the class of class objects. -/
def classClass : RubyClass := .ordinary "Class" [] (some objectClass)

/-- `Class()` of a value, as `Option` (`none` embeds a nil Go interface
value).  From the source: `Builtin.Class`, `RequireStatement.Class` and
`Function.Class` return nil (`ruby_object.go` lines 86, 116, 146);
`ReturnValue.Class` returns the wrapped value's class (line 101);
`extendedObject.Class` returns its eigenclass (line 197); `Self` does not
override `Class()`, so embedding promotes the wrapped object's.  The
primitive variants' classes are modelled from the spec (never nil). -/
def classOf : RubyObject → Option RubyClass
  | .nilObj => some nilClass
  | .boolean _ => some booleanClass
  | .integer _ => some integerClass
  | .string _ => some stringClass
  | .symbol _ => some symbolClass
  | .array _ => some arrayClass
  | .builtin => none
  | .returnValue v => classOf v
  | .requireStatement _ => none
  | .functionObj _ _ _ _ => none
  | .selfObj o => classOf o
  | .classObject _ => some classClass
  | .extended _ ms w => some (.eigen ms w)

/-- Name of a class-like entity, for inspection. -/
def RubyClass.className : RubyClass → String
  | .ordinary n _ _ => n
  | .eigen _ w => w.className

mutual
/-- `Inspect()` of a value.  The cases for `Builtin` ("builtin function"),
`ReturnValue` (wrapped value's inspection), `RequireStatement` (the
required name), `Function` (`fn(params) { body }`) are from the source;
`Self` and `extendedObject` promote the wrapped object's `Inspect()` via
Go embedding; primitive variants are modelled from the spec ("an `inspect`
textual representation"). -/
def inspect : RubyObject → String
  | .nilObj => "nil"
  | .boolean true => "true"
  | .boolean false => "false"
  | .integer n => toString n
  | .string s => s
  | .symbol s => ":" ++ s
  | .array es => "[" ++ String.intercalate ", " (inspectList es) ++ "]"
  | .builtin => "builtin function"
  | .returnValue v => inspect v
  | .requireStatement s => s
  | .functionObj ps b _ _ =>
      "fn(" ++ String.intercalate ", " ps ++ ") \x7b\n" ++ b.src ++ "\n\x7d"
  | .selfObj o => inspect o
  | .classObject c => c.className
  | .extended o _ _ => inspect o

/-- Inspections of a list of values, element by element. -/
def inspectList : List RubyObject → List String
  | [] => []
  | o :: os => inspect o :: inspectList os
end

/-- `NIL`, the nil singleton. -/
def NIL : RubyObject := .nilObj

/-- `FALSE`, the false singleton. -/
def FALSE : RubyObject := .boolean false

/-- Modelled from the spec's error taxonomy (§7; the error constructors
`NewWrongNumberOfArgumentsError`, `NewImplicitConversionTypeError` and
`NewNoMethodError` are not under `src/`): `NoMethodError`,
`WrongNumberOfArgumentsError{expected, actual}`,
`ImplicitConversionTypeError{expectedKind, actualValue}`. -/
inductive RubyError where
  | noMethodError (name : String)
  | wrongNumberOfArguments (expected actual : Nat)
  | implicitConversionType (expectedKind : String) (actual : RubyObject)

/-- The per-call capability bundle `CallContext`: the receiver and the
evaluator callback `Eval` used to run interpreted bodies. -/
structure CallContext where
  receiver : RubyObject
  eval : BlockStatement → Environment → Except RubyError RubyObject

/-! ## Kernel builtins (`kernel.go`) -/

/-- `kernelPuts` (`kernel.go` lines 33–40): concatenate `Inspect()` of
each argument into `out`, `fmt.Println(out)`, return `NIL` and no error.
The write to standard output is surfaced as the first component: the
exact text `fmt.Println` emits, i.e. `out` followed by one newline. -/
def kernelPuts (_ctx : CallContext) (args : List RubyObject) :
    String × Except RubyError RubyObject :=
  let out := args.foldl (fun acc a => acc ++ inspect a) ""
  (out ++ "\n", .ok NIL)

/-- The public-method symbols of one method table: Go's
`if fn.Visibility() == PUBLIC_METHOD { append(&Symbol{meth}) }` over the
table. -/
def publicSymbols (ms : List (String × RubyMethod)) : List RubyObject :=
  (ms.filter (fun p => p.2.visibility == MethodVisibility.publicMethod)).map
    (fun p => .symbol p.1)

/-- One step of the `for class != nil { …; class = class.SuperClass() }`
loop of `kernelMethods` starting at a non-nil class: collect this level's
public method symbols, then continue along the superclass link (for an
eigenclass, the wrapped original class). -/
def RubyClass.methodSymbols : RubyClass → List RubyObject
  | .ordinary _ ms sc =>
    publicSymbols ms ++
      (match sc with
       | some c => c.methodSymbols
       | none => [])
  | .eigen ms w => publicSymbols ms ++ w.methodSymbols

/-- The full `kernelMethods` loop from an optional starting class. -/
def methodsChainSymbols : Option RubyClass → List RubyObject
  | none => []
  | some c => c.methodSymbols

/-- `kernelMethods` (`kernel.go` lines 42–56): walk the receiver's class
chain from `context.Receiver().Class()`, appending a `Symbol` for every
public method of every level, and wrap the result in an `Array`. -/
def kernelMethods (ctx : CallContext) (_args : List RubyObject) :
    Except RubyError RubyObject :=
  .ok (.array (methodsChainSymbols (classOf ctx.receiver)))

/-- `kernelIsNil` (`kernel.go` lines 58–60): always `FALSE`. -/
def kernelIsNil (_ctx : CallContext) (_args : List RubyObject) :
    Except RubyError RubyObject :=
  .ok FALSE

/-- The `if eigenClass, ok := class.(*eigenclass); ok { class =
eigenClass.Class() }` step of `kernelClass`: unwrap exactly one eigenclass
level (`Eigenclass.Class()` returns the wrapped original class, per the
spec). -/
def unwrapOneEigen : RubyClass → RubyClass
  | .eigen _ w => w
  | c => c

/-- `kernelClass` (`kernel.go` lines 62–69): take the receiver's class,
unwrap one eigenclass level, and return it through the unchecked type
assertion `class.(RubyClassObject)`.  A nil class (Go interface nil) makes
that assertion panic, embedded as `none`; a non-nil class-like value
always satisfies the assertion, giving `some` of the class object. -/
def kernelClass (ctx : CallContext) (_args : List RubyObject) :
    Option (Except RubyError RubyObject) :=
  match classOf ctx.receiver with
  | none => none
  | some c => some (.ok (.classObject (unwrapOneEigen c)))

/-- `kernelRequire` (`kernel.go` lines 71–80): reject argument lists of
length ≠ 1 with `WrongNumberOfArgumentsError(1, len(args))`; reject a
single non-`*String` argument with
`NewImplicitConversionTypeError(name, args[0])` (expected kind String);
otherwise return `&RequireStatement{name}` carrying the argument. -/
def kernelRequire (_ctx : CallContext) (args : List RubyObject) :
    Except RubyError RubyObject :=
  match args with
  | [RubyObject.string s] => .ok (.requireStatement s)
  | [a] => .error (.implicitConversionType "String" a)
  | _ => .error (.wrongNumberOfArguments 1 args.length)

/-! ## User-defined functions (`Function`, `ruby_object.go` lines 118–179) -/

/-- `Function`: parameter names, interpreted body, captured definition-time
environment and visibility. -/
structure Function where
  parameters : List String
  body : BlockStatement
  env : Environment
  methodVisibility : MethodVisibility

/-- `extendFunctionEnv` (`ruby_object.go` lines 166–172): a fresh
environment enclosing the captured `f.Env`, with `Set(param, args[i])`
performed in parameter order. -/
def Function.extendFunctionEnv (f : Function) (args : List RubyObject) :
    Environment :=
  (f.parameters.zip args).foldl (fun e p => e.Set p.1 p.2)
    (Environment.NewEnclosedEnvironment f.env)

/-- `unwrapReturnValue` (`ruby_object.go` lines 174–179): strip exactly
one `ReturnValue` wrapper, if present. -/
def unwrapReturnValue : RubyObject → RubyObject
  | .returnValue v => v
  | o => o

/-- `Function.Call` (`ruby_object.go` lines 149–159): an argument count
differing from the parameter count fails with
`WrongNumberOfArgumentsError(len(f.Parameters), len(args))`; otherwise the
body is evaluated via `context.Eval` in the extended environment, errors
propagate, and a successful result is unwrapped one `ReturnValue`
level. -/
def Function.Call (f : Function) (ctx : CallContext)
    (args : List RubyObject) : Except RubyError RubyObject :=
  if args.length ≠ f.parameters.length then
    .error (.wrongNumberOfArguments f.parameters.length args.length)
  else
    match ctx.eval f.body (f.extendFunctionEnv args) with
    | .error e => .error e
    | .ok v => .ok (unwrapReturnValue v)

/-! ## Extended objects and method resolution -/

/-- `extendedObject.addMethod` (`ruby_object.go` lines 198–200) delegates
to the eigenclass's `addMethod`; modelled from the spec for the eigenclass
side (not under `src/`): "insert into its table".  On any non-extended
value the operation does not apply and leaves the value unchanged. -/
def addMethodExtended (o : RubyObject) (name : String) (m : RubyMethod) :
    RubyObject :=
  match o with
  | .extended inner ms w => .extended inner ((name, m) :: ms) w
  | other => other

/-- Modelled from the spec (§4.2, the dispatcher's Go code is not under
`src/`): `resolve(class, name)` walks the chain starting at `class`,
checking each level's table, first hit wins; walking past an eigenclass
continues in the wrapped original class. -/
def RubyClass.resolve : RubyClass → String → Option RubyMethod
  | .ordinary _ ms sc, n =>
    (match ms.lookup n with
     | some m => some m
     | none =>
       match sc with
       | some c => c.resolve n
       | none => none)
  | .eigen ms w, n =>
    (match ms.lookup n with
     | some m => some m
     | none => w.resolve n)

/-- Resolution from an optional (possibly nil) starting class. -/
def resolveMethod (oc : Option RubyClass) (n : String) : Option RubyMethod :=
  match oc with
  | none => none
  | some c => c.resolve n

/-- The method tables along one class's resolution chain, most specific
level first. -/
def RubyClass.tables : RubyClass → List (List (String × RubyMethod))
  | .ordinary _ ms sc =>
    ms ::
      (match sc with
       | some c => c.tables
       | none => [])
  | .eigen ms w => ms :: w.tables

/-- The method tables of a resolution chain, most specific level first. -/
def chainTables : Option RubyClass → List (List (String × RubyMethod))
  | none => []
  | some c => c.tables

/-- Occurrences of the symbol `name` in a list of values. -/
def countSymbol (name : String) : List RubyObject → Nat
  | [] => 0
  | .symbol s :: rest => (if s = name then 1 else 0) + countSymbol name rest
  | _ :: rest => countSymbol name rest

/-- Number of public entries under `name` in one method table. -/
def publicCount (name : String) (ms : List (String × RubyMethod)) : Nat :=
  (ms.filter (fun p =>
    p.1 == name && p.2.visibility == MethodVisibility.publicMethod)).length

/-- Whether a value is a `*String`, i.e. whether the type assertion
`args[0].(*String)` in `kernelRequire` succeeds. -/
def isString : RubyObject → Bool
  | .string _ => true
  | _ => false

/-- Whether a value is a `ReturnValue` wrapper, i.e. whether the type
assertion `obj.(*ReturnValue)` in `unwrapReturnValue` succeeds. -/
def isReturnValue : RubyObject → Bool
  | .returnValue _ => true
  | _ => false

/-- Strip the wrappers whose `Class()` delegates to the wrapped value
(`ReturnValue` explicitly, `Self` by Go struct embedding). -/
def stripDelegating : RubyObject → RubyObject
  | .nilObj => .nilObj
  | .boolean b => .boolean b
  | .integer n => .integer n
  | .string s => .string s
  | .symbol s => .symbol s
  | .array es => .array es
  | .builtin => .builtin
  | .returnValue v => stripDelegating v
  | .requireStatement s => .requireStatement s
  | .functionObj ps b e vis => .functionObj ps b e vis
  | .selfObj o => stripDelegating o
  | .classObject c => .classObject c
  | .extended o ms w => .extended o ms w

/-! ## Concrete fixtures used by witnesses -/

/-- A trivial evaluator callback that always yields `NIL`. -/
def evalStub : BlockStatement → Environment → Except RubyError RubyObject :=
  fun _ _ => .ok NIL

/-- A call context with receiver `NIL` and the trivial evaluator. -/
def ctxNil : CallContext := ⟨NIL, evalStub⟩

/-- A call context whose evaluator always yields an explicit return-value
wrapper around the integer 5. -/
def ctxRet5 : CallContext :=
  ⟨NIL, fun _ _ => .ok (.returnValue (.integer 5))⟩

/-- A one-parameter interpreted function with an empty captured
environment. -/
def fnEx : Function :=
  ⟨["x"], ⟨"x"⟩, .mk [] none, .publicMethod⟩

/-- A sample public zero-arity method record. -/
def mEx : RubyMethod := ⟨.publicMethod, some 0, 9⟩

/-! ## Theorems -/

/-- C1: `kernelRequire` called with exactly one String argument returns a
`RequireStatement` carrying exactly that string and no error; called with
one non-String argument it returns an `ImplicitConversionTypeError` and
never a `RequireStatement` value. -/
theorem c1_kernelRequire_string_roundtrip (ctx : CallContext)
    (a : RubyObject) (h : isString a = false) :
    (∀ s, kernelRequire ctx [.string s] = .ok (.requireStatement s)) ∧
    kernelRequire ctx [a] = .error (.implicitConversionType "String" a) ∧
    (∀ s, kernelRequire ctx [a] ≠ .ok (.requireStatement s)) := by
  refine ⟨fun s => rfl, ?_, ?_⟩ <;> cases a <;> simp_all [kernelRequire, isString]

/-- Witness for C1 at the inputs `require("foo")` and `require(1)`. -/
theorem c1_kernelRequire_witness :
    kernelRequire ctxNil [.string "foo"] = .ok (.requireStatement "foo") ∧
    kernelRequire ctxNil [.integer 1] =
      .error (.implicitConversionType "String" (.integer 1)) := by
  have h := c1_kernelRequire_string_roundtrip ctxNil (.integer 1) rfl
  exact ⟨h.1 "foo", h.2.1⟩

/-- C2: calling an interpreted `Function` with an argument list whose
length differs from the declared parameter count yields
`WrongNumberOfArgumentsError{expected, actual}` for every call context —
the result does not depend on the evaluator callback, so the body is
never evaluated; only matching lengths reach the `context.Eval` branch. -/
theorem c2_function_call_arity_mismatch (f : Function)
    (args : List RubyObject) (h : args.length ≠ f.parameters.length) :
    ∀ ctx : CallContext,
      f.Call ctx args =
        .error (.wrongNumberOfArguments f.parameters.length args.length) := by
  intro ctx
  simp [Function.Call, h]

/-- Witness for C2: a one-parameter function called with no arguments. -/
theorem c2_function_call_arity_witness :
    fnEx.Call ctxNil [] = .error (.wrongNumberOfArguments 1 0) :=
  c2_function_call_arity_mismatch fnEx [] (by decide) ctxNil

/-- C7: `kernelPuts` writes exactly the concatenation, in argument order
and with no separator, of the arguments' `Inspect()` strings, terminated
by a single newline, and returns `NIL` with no error. -/
theorem c7_kernelPuts_output (ctx : CallContext) (args : List RubyObject) :
    kernelPuts ctx args = (String.join (args.map inspect) ++ "\n", .ok NIL) := by
  simp [kernelPuts, String.join, List.foldl_map]

/-- Helper for C10: no value's `Type()` is the declared constant
`REQUIRE_STATEMENT_OBJ`. -/
theorem typeOf_beq_require_false : ∀ o : RubyObject,
    (typeOf o == REQUIRE_STATEMENT_OBJ) = false
  | .nilObj => by simp only [typeOf]; decide
  | .boolean _ => by simp only [typeOf]; decide
  | .integer _ => by simp only [typeOf]; decide
  | .string _ => by simp only [typeOf]; decide
  | .symbol _ => by simp only [typeOf]; decide
  | .array _ => by simp only [typeOf]; decide
  | .builtin => by simp only [typeOf]; decide
  | .returnValue _ => by simp only [typeOf]; decide
  | .requireStatement _ => by simp only [typeOf]; decide
  | .functionObj _ _ _ _ => by simp only [typeOf]; decide
  | .selfObj _ => by simp only [typeOf]; decide
  | .classObject (.ordinary _ _ _) => by simp only [typeOf]; decide
  | .classObject (.eigen _ _) => by simp only [typeOf]; decide
  | .extended o _ _ => typeOf_beq_require_false o

/-- C10: `RequireStatement.Type()` returns `RETURN_VALUE_OBJ`, the very
tag `ReturnValue.Type()` returns, so the two are indistinguishable by
type tag; the declared constant `REQUIRE_STATEMENT_OBJ` differs from
`RETURN_VALUE_OBJ` and is returned by no value's `Type()`. -/
theorem c10_requireStatement_type_tag :
    (∀ s, typeOf (.requireStatement s) = RETURN_VALUE_OBJ) ∧
    (∀ s v, typeOf (.requireStatement s) = typeOf (.returnValue v)) ∧
    ((REQUIRE_STATEMENT_OBJ == RETURN_VALUE_OBJ) = false) ∧
    (∀ o : RubyObject, (typeOf o == REQUIRE_STATEMENT_OBJ) = false) :=
  ⟨fun _ => rfl, fun _ _ => rfl, by decide, typeOf_beq_require_false⟩

/-- Helper for C3: `Class()` is nil exactly when stripping the delegating
wrappers (`ReturnValue`, `Self`) leaves `Builtin`, `RequireStatement` or
`Function`. -/
theorem classOf_eq_none_iff : ∀ o : RubyObject,
    (classOf o = none ↔
      (stripDelegating o = .builtin ∨
       (∃ s, stripDelegating o = .requireStatement s) ∨
       (∃ ps b e vis, stripDelegating o = .functionObj ps b e vis)))
  | .nilObj => by simp [classOf, stripDelegating]
  | .boolean _ => by simp [classOf, stripDelegating]
  | .integer _ => by simp [classOf, stripDelegating]
  | .string _ => by simp [classOf, stripDelegating]
  | .symbol _ => by simp [classOf, stripDelegating]
  | .array _ => by simp [classOf, stripDelegating]
  | .builtin => by simp [classOf, stripDelegating]
  | .returnValue v => by
      simpa [classOf, stripDelegating] using classOf_eq_none_iff v
  | .requireStatement _ => by simp [classOf, stripDelegating]
  | .functionObj _ _ _ _ => by simp [classOf, stripDelegating]
  | .selfObj o => by
      simpa [classOf, stripDelegating] using classOf_eq_none_iff o
  | .classObject _ => by simp [classOf, stripDelegating]
  | .extended _ _ _ => by simp [classOf, stripDelegating]

/-- C3 (amended): a value's `Class()` is nil exactly for the internal
wrappers `Builtin`, `RequireStatement` and `Function` (possibly under
delegating `ReturnValue`/`Self` layers); `ReturnValue` and `Self` delegate
`Class()` to the wrapped value, and an extended object's class is its
eigenclass — all user-visible variants have a non-nil class. -/
theorem c3_classOf_nil_characterization :
    (∀ o : RubyObject, classOf o = none ↔
      (stripDelegating o = .builtin ∨
       (∃ s, stripDelegating o = .requireStatement s) ∨
       (∃ ps b e vis, stripDelegating o = .functionObj ps b e vis))) ∧
    (∀ v, classOf (.returnValue v) = classOf v) ∧
    (∀ o, classOf (.selfObj o) = classOf o) ∧
    (∀ o ms w, classOf (.extended o ms w) = some (.eigen ms w)) :=
  ⟨classOf_eq_none_iff, fun _ => rfl, fun _ => rfl, fun _ _ _ => rfl⟩

/-- Witness for C3 (amended), instantiated at `RequireStatement`. -/
theorem c3_classOf_witness :
    classOf (RubyObject.requireStatement "foo") = none :=
  (c3_classOf_nil_characterization.1 (.requireStatement "foo")).mpr
    (Or.inr (Or.inl ⟨"foo", rfl⟩))

/-- C3 counterexample: `RequireStatement` is neither `Builtin` nor
`ReturnValue` yet its `Class()` is nil, and a `ReturnValue` wrapping an
integer has the integer's non-nil class — so "Class() is non-nil except
for exactly the two variants Builtin and ReturnValue, for which it is
nil" fails in both directions. -/
theorem c3_classOf_claim_counterexample :
    classOf (RubyObject.requireStatement "foo") = none ∧
    classOf (RubyObject.returnValue (RubyObject.integer 1)) =
      some integerClass :=
  ⟨rfl, rfl⟩

/-- C5: `kernelClass` returns the receiver's user-facing class object:
when the receiver's `Class()` is an eigenclass it unwraps exactly one
level and returns the eigenclass's `Class()` (the wrapped original
class); otherwise it returns `Class()` directly.  In particular, on a
singleton-extended object it returns the original class object, never the
synthetic eigenclass. -/
theorem c5_kernelClass_unwraps_one_eigenclass :
    (∀ (ctx : CallContext) (a : List RubyObject) n ms sc,
      classOf ctx.receiver = some (.ordinary n ms sc) →
      kernelClass ctx a = some (.ok (.classObject (.ordinary n ms sc)))) ∧
    (∀ (ctx : CallContext) (a : List RubyObject) ms w,
      classOf ctx.receiver = some (.eigen ms w) →
      kernelClass ctx a = some (.ok (.classObject w))) ∧
    (∀ ev (a : List RubyObject) o ms w,
      kernelClass ⟨.extended o ms w, ev⟩ a =
        some (.ok (.classObject w))) := by
  refine ⟨?_, ?_, ?_⟩
  · intro ctx a n ms sc h
    simp [kernelClass, h, unwrapOneEigen]
  · intro ctx a ms w h
    simp [kernelClass, h, unwrapOneEigen]
  · intro ev a o ms w
    simp [kernelClass, classOf, unwrapOneEigen]

/-- Witness for C5: `class` on a singleton-extended integer yields the
`Integer` class, not the eigenclass. -/
theorem c5_kernelClass_witness :
    kernelClass ⟨.extended (.integer 3) [] integerClass, evalStub⟩ [] =
      some (.ok (.classObject integerClass)) :=
  c5_kernelClass_unwraps_one_eigenclass.2.2 evalStub [] (.integer 3) []
    integerClass

/-- C8: adding a method to a singleton-extended object inserts it only
into that object's own eigenclass table (the wrapped original class is
untouched), so the name resolves on the extended object, while resolution
for any second object governed by the same original class is unchanged —
it still fails there unless that class chain itself defines the name. -/
theorem c8_addMethod_eigenclass_isolation (o : RubyObject)
    (ms : List (String × RubyMethod)) (w : RubyClass) (n : String)
    (m : RubyMethod) :
    addMethodExtended (.extended o ms w) n m = .extended o ((n, m) :: ms) w ∧
    resolveMethod (classOf (addMethodExtended (.extended o ms w) n m)) n =
      some m ∧
    (∀ o₂ : RubyObject, classOf o₂ = some w →
      resolveMethod (classOf o₂) n = resolveMethod (some w) n) ∧
    (∀ o₂ : RubyObject, classOf o₂ = some w →
      resolveMethod (some w) n = none →
      resolveMethod (classOf o₂) n = none) := by
  refine ⟨rfl, ?_, ?_, ?_⟩
  · simp [addMethodExtended, classOf, resolveMethod, RubyClass.resolve,
      List.lookup]
  · intro o₂ h
    rw [h]
  · intro o₂ h hw
    rw [h, hw]

/-- Witness for C8: extending one integer object with `shout` makes it
resolvable there but not on a plain integer of the same class. -/
theorem c8_addMethod_witness :
    resolveMethod
      (classOf (addMethodExtended (.extended (.integer 3) [] integerClass)
        "shout" mEx)) "shout" = some mEx ∧
    resolveMethod (classOf (RubyObject.integer 4)) "shout" = none := by
  have h := c8_addMethod_eigenclass_isolation (.integer 3) [] integerClass
    "shout" mEx
  exact ⟨h.2.1, h.2.2.2 (.integer 4) rfl rfl⟩

/-- C9: `kernelClass` yields a value exactly when the receiver's class is
non-nil — any `some` class passes the `class.(RubyClassObject)` assertion
— while a receiver whose `Class()` is nil (`Builtin`, `RequireStatement`,
`Function`) makes the unchecked assertion panic (embedded as `none`)
instead of returning an error result. -/
theorem c9_kernelClass_panics_on_nil_class :
    (∀ (ctx : CallContext) (a : List RubyObject),
      classOf ctx.receiver = none → kernelClass ctx a = none) ∧
    (∀ (ctx : CallContext) (a : List RubyObject) c,
      classOf ctx.receiver = some c → ∃ r, kernelClass ctx a = some r) ∧
    (∀ ev (a : List RubyObject), kernelClass ⟨.builtin, ev⟩ a = none) ∧
    (∀ ev (a : List RubyObject) s,
      kernelClass ⟨.requireStatement s, ev⟩ a = none) ∧
    (∀ ev (a : List RubyObject) ps b e vis,
      kernelClass ⟨.functionObj ps b e vis, ev⟩ a = none) := by
  refine ⟨?_, ?_, ?_, ?_, ?_⟩
  · intro ctx a h
    simp [kernelClass, h]
  · intro ctx a c h
    exact ⟨.ok (.classObject (unwrapOneEigen c)), by simp [kernelClass, h]⟩
  · intro ev a
    rfl
  · intro ev a s
    rfl
  · intro ev a ps b e vis
    rfl

/-- Witness for C9: `class` on a `RequireStatement` receiver panics, and
on an integer receiver yields a value. -/
theorem c9_kernelClass_witness :
    kernelClass ⟨.requireStatement "foo", evalStub⟩ [] = none ∧
    ∃ r, kernelClass ⟨.integer 1, evalStub⟩ [] = some r :=
  ⟨c9_kernelClass_panics_on_nil_class.2.2.2.1 evalStub [] "foo",
   c9_kernelClass_panics_on_nil_class.2.1 ⟨.integer 1, evalStub⟩ []
     integerClass rfl⟩

/-- Looking a key up in concatenated stores: the left store wins. -/
theorem lookup_append (l₁ l₂ : List (String × RubyObject)) (k : String) :
    (l₁ ++ l₂).lookup k = ((l₁.lookup k).or (l₂.lookup k)) := by
  induction l₁ with
  | nil => simp [List.lookup]
  | cons p t ih =>
    cases p
    simp only [List.cons_append, List.lookup]
    split <;> simp [ih]

/-- A key that is not among a store's keys is not found. -/
theorem lookup_eq_none_of_not_mem (l : List (String × RubyObject))
    (k : String) (h : k ∉ l.map Prod.fst) : l.lookup k = none := by
  induction l with
  | nil => rfl
  | cons p t ih =>
    simp only [List.map_cons, List.mem_cons] at h
    push_neg at h
    cases p with
    | mk a b =>
      have hk : (k == a) = false := beq_eq_false_iff_ne.mpr h.1
      simp [List.lookup, hk, ih h.2]

/-- `Set` pushes the binding onto the innermost store. -/
theorem set_store (e : Environment) (k : String) (v : RubyObject) :
    (e.Set k v).store = (k, v) :: e.store := rfl

/-- `Set` leaves the enclosing environment unchanged. -/
theorem set_outer (e : Environment) (k : String) (v : RubyObject) :
    (e.Set k v).outer = e.outer := rfl

/-- Folding `Set` over a binding list prepends the reversed bindings. -/
theorem foldl_set_store (l : List (String × RubyObject)) (e : Environment) :
    (l.foldl (fun acc p => acc.Set p.1 p.2) e).store =
      l.reverse ++ e.store := by
  induction l generalizing e with
  | nil => simp
  | cons p t ih =>
    simp [ih, set_store, List.append_assoc]

/-- Folding `Set` over a binding list keeps the enclosing environment. -/
theorem foldl_set_outer (l : List (String × RubyObject)) (e : Environment) :
    (l.foldl (fun acc p => acc.Set p.1 p.2) e).outer = e.outer := by
  induction l generalizing e with
  | nil => rfl
  | cons p t ih =>
    simp [ih, set_outer]

/-- The store accessor on a literal environment. -/
theorem store_mk (s : List (String × RubyObject)) (o : Option Environment) :
    (Environment.mk s o).store = s := rfl

/-- The outer accessor on a literal environment. -/
theorem outer_mk (s : List (String × RubyObject)) (o : Option Environment) :
    (Environment.mk s o).outer = o := rfl

/-- `Get` on an outermost environment is a plain store lookup. -/
theorem get_mk_none (s : List (String × RubyObject)) (k : String) :
    Environment.Get (.mk s none) k = s.lookup k := rfl

/-- `Get` on an enclosed environment tries the store, then the chain. -/
theorem get_mk_some (s : List (String × RubyObject)) (e : Environment)
    (k : String) :
    Environment.Get (.mk s (some e)) k = (s.lookup k).or (e.Get k) := rfl

/-- `Get` consults the innermost store first, then the enclosing chain. -/
theorem get_eq (e : Environment) (k : String) :
    e.Get k = ((e.store.lookup k).or
      (match e.outer with
       | some e' => e'.Get k
       | none => none)) := by
  obtain ⟨s, o⟩ := e
  cases o with
  | none => rw [get_mk_none, store_mk, outer_mk]; simp
  | some e' => rw [get_mk_some, store_mk, outer_mk]

/-- The extended invocation environment encloses the captured
definition-time environment. -/
theorem extendFunctionEnv_outer (f : Function) (vs : List RubyObject) :
    (f.extendFunctionEnv vs).outer = some f.env := by
  rw [Function.extendFunctionEnv, foldl_set_outer]
  rfl

/-- The extended invocation environment's own store is exactly the
reversed parameter/argument zip. -/
theorem extendFunctionEnv_store (f : Function) (vs : List RubyObject) :
    (f.extendFunctionEnv vs).store = (f.parameters.zip vs).reverse := by
  rw [Function.extendFunctionEnv, foldl_set_store]
  simp [Environment.NewEnclosedEnvironment, store_mk]

/-- Looking a parameter up in the reversed zip finds the argument with
the same position, given distinct parameter names. -/
theorem lookup_reverse_zip :
    ∀ (ps : List String) (vs : List RubyObject), ps.Nodup →
      ∀ (hlen : vs.length = ps.length) (i : Nat) (hi : i < ps.length),
        ((ps.zip vs).reverse).lookup (ps.get ⟨i, hi⟩) =
          some (vs.get ⟨i, by omega⟩) := by
  intro ps
  induction ps with
  | nil =>
    intro vs hnd hlen i hi
    exact absurd hi (by simp)
  | cons p pt ih =>
    intro vs hnd hlen i hi
    cases vs with
    | nil => simp at hlen
    | cons v vt =>
      have hnd' := List.nodup_cons.mp hnd
      simp only [List.zip_cons_cons, List.reverse_cons]
      rw [lookup_append]
      cases i with
      | zero =>
        rw [show (p :: pt).get ⟨0, hi⟩ = p from rfl]
        have hkeys : p ∉ ((pt.zip vt).reverse).map Prod.fst := by
          rw [List.map_reverse, List.mem_reverse,
            List.map_fst_zip pt vt (by simp at hlen; omega)]
          exact hnd'.1
        rw [lookup_eq_none_of_not_mem _ _ hkeys]
        simp [List.lookup]
      | succ j =>
        have hj : j < pt.length := by simpa using hi
        rw [show (p :: pt).get ⟨j + 1, hi⟩ = pt.get ⟨j, hj⟩ from rfl]
        rw [ih vt hnd'.2 (by simpa using hlen) j hj]
        simp

/-- In the extended environment each (distinct) parameter name is bound
to the positional argument of the same index. -/
theorem extendFunctionEnv_get_param (f : Function) (vs : List RubyObject)
    (hnd : f.parameters.Nodup) (hlen : vs.length = f.parameters.length)
    (i : Nat) (hi : i < f.parameters.length) :
    (f.extendFunctionEnv vs).Get (f.parameters.get ⟨i, hi⟩) =
      some (vs.get ⟨i, by omega⟩) := by
  rw [get_eq, extendFunctionEnv_store, extendFunctionEnv_outer,
    lookup_reverse_zip f.parameters vs hnd hlen i hi]
  simp

/-- Any other name defers to the captured definition-time environment. -/
theorem extendFunctionEnv_get_other (f : Function) (vs : List RubyObject)
    (hlen : vs.length = f.parameters.length) (n : String)
    (hn : n ∉ f.parameters) :
    (f.extendFunctionEnv vs).Get n = f.env.Get n := by
  rw [get_eq, extendFunctionEnv_store, extendFunctionEnv_outer]
  rw [lookup_eq_none_of_not_mem _ _ (by
    rw [List.map_reverse, List.mem_reverse,
      List.map_fst_zip f.parameters vs (by omega)]
    exact hn)]
  simp

/-- C4: with a matching-length argument list, `Function.Call` evaluates
the body via the CallContext in a fresh environment that encloses the
captured definition-time environment and binds each parameter name to the
positional argument of the same index; an evaluation error propagates, a
`ReturnValue` result is unwrapped exactly one level, and any other result
is returned unchanged. -/
theorem c4_function_call_semantics (f : Function) (ctx : CallContext)
    (args : List RubyObject) (hlen : args.length = f.parameters.length) :
    (f.extendFunctionEnv args).outer = some f.env ∧
    (f.parameters.Nodup → ∀ (i : Nat) (hi : i < f.parameters.length),
      (f.extendFunctionEnv args).Get (f.parameters.get ⟨i, hi⟩) =
        some (args.get ⟨i, by omega⟩)) ∧
    (∀ n, n ∉ f.parameters →
      (f.extendFunctionEnv args).Get n = f.env.Get n) ∧
    (∀ e, ctx.eval f.body (f.extendFunctionEnv args) = .error e →
      f.Call ctx args = .error e) ∧
    (∀ v, ctx.eval f.body (f.extendFunctionEnv args) = .ok (.returnValue v) →
      f.Call ctx args = .ok v) ∧
    (∀ v, isReturnValue v = false →
      ctx.eval f.body (f.extendFunctionEnv args) = .ok v →
      f.Call ctx args = .ok v) := by
  refine ⟨extendFunctionEnv_outer f args,
    fun hnd i hi => extendFunctionEnv_get_param f args hnd hlen i hi,
    fun n hn => extendFunctionEnv_get_other f args hlen n hn,
    ?_, ?_, ?_⟩
  · intro e he
    simp [Function.Call, hlen, he]
  · intro v hv
    simp [Function.Call, hlen, hv, unwrapReturnValue]
  · intro v hv he
    have hc : f.Call ctx args = .ok (unwrapReturnValue v) := by
      simp [Function.Call, hlen, he]
    rw [hc]
    cases v <;> simp_all [isReturnValue, unwrapReturnValue]

/-- Witness for C4: a one-parameter function, called with one argument,
binds it, runs the body and unwraps the explicit return value. -/
theorem c4_function_call_witness :
    fnEx.Call ctxRet5 [.integer 7] = .ok (.integer 5) ∧
    (fnEx.extendFunctionEnv [.integer 7]).Get "x" = some (.integer 7) := by
  have h := c4_function_call_semantics fnEx ctxRet5 [.integer 7] rfl
  exact ⟨h.2.2.2.2.1 (.integer 5) rfl, h.2.1 (by decide) 0 (by decide)⟩

/-- Helper for C6: the loop's walk equals the flattened per-table public
symbol lists. -/
theorem methodSymbols_eq_flatten : ∀ c : RubyClass,
    c.methodSymbols = (c.tables.map publicSymbols).flatten
  | .ordinary _ ms none => by
    simp [RubyClass.methodSymbols, RubyClass.tables]
  | .ordinary _ ms (some c') => by
    simp [RubyClass.methodSymbols, RubyClass.tables,
      methodSymbols_eq_flatten c']
  | .eigen ms w => by
    simp [RubyClass.methodSymbols, RubyClass.tables,
      methodSymbols_eq_flatten w]

/-- Helper for C6: the same equation from an optional starting class. -/
theorem methodsChainSymbols_eq_flatten (oc : Option RubyClass) :
    methodsChainSymbols oc =
      ((chainTables oc).map publicSymbols).flatten := by
  cases oc with
  | none => rfl
  | some c => simp [methodsChainSymbols, chainTables,
      methodSymbols_eq_flatten c]

/-- Helper for C6: symbol counting distributes over append. -/
theorem countSymbol_append (n : String) (l₁ l₂ : List RubyObject) :
    countSymbol n (l₁ ++ l₂) = countSymbol n l₁ + countSymbol n l₂ := by
  induction l₁ with
  | nil => simp [countSymbol]
  | cons o t ih => cases o <;> simp [countSymbol, ih, Nat.add_assoc]

/-- Helper for C6: counting a symbol over one table's public symbols
yields the number of that table's public entries under the name. -/
theorem countSymbol_publicSymbols (n : String)
    (ms : List (String × RubyMethod)) :
    countSymbol n (publicSymbols ms) = publicCount n ms := by
  induction ms with
  | nil => rfl
  | cons p t ih =>
    obtain ⟨k, m⟩ := p
    simp only [publicSymbols, publicCount, List.filter_cons] at ih ⊢
    by_cases hv : m.visibility = MethodVisibility.publicMethod
    · by_cases hk : k = n
      · subst hk
        simp [hv, countSymbol, ih]
        omega
      · simp [hv, hk, countSymbol, ih]
    · simp [hv, countSymbol, ih]

/-- Helper for C6: counting over the flattened per-table public symbols
is the sum of the per-table public counts. -/
theorem countSymbol_flatten (n : String)
    (ts : List (List (String × RubyMethod))) :
    countSymbol n ((ts.map publicSymbols).flatten) =
      (ts.map (publicCount n)).sum := by
  induction ts with
  | nil => rfl
  | cons t rest ih =>
    simp [List.flatten, countSymbol_append, countSymbol_publicSymbols, ih]

/-- Helper for C6: a table all of whose entries under `n` are private
contributes no public entry under `n`. -/
theorem publicCount_eq_zero_of_private (n : String) :
    ∀ t : List (String × RubyMethod),
      (∀ p ∈ t, p.1 = n →
        p.2.visibility = MethodVisibility.privateMethod) →
      publicCount n t = 0
  | [], _ => rfl
  | (k, m) :: r, h => by
    have hr := publicCount_eq_zero_of_private n r
      (fun p hp hkn => h p (List.mem_cons_of_mem _ hp) hkn)
    have hm : k = n → m.visibility = MethodVisibility.privateMethod :=
      fun hk => h (k, m) (List.mem_cons_self _ _) hk
    simp only [publicCount, List.filter_cons] at hr ⊢
    by_cases hk : k = n
    · have hm' := hm hk
      simp [hm', hr]
    · simp [hk, hr]

/-- C6: `methods` walks the receiver's full resolution chain, starting at
`Class()` (through the eigenclass when present) to the chain's end, and
returns an Array of Symbols holding, level by level in chain order,
exactly the names of each level's public methods: more specific levels'
names come first, private names never appear, and a name repeated across
levels is kept once per defining level (no deduplication). -/
theorem c6_kernelMethods_public_walk (ctx : CallContext)
    (a : List RubyObject) :
    kernelMethods ctx a =
      .ok (.array
        (((chainTables (classOf ctx.receiver)).map publicSymbols).flatten)) ∧
    (∀ n, countSymbol n (methodsChainSymbols (classOf ctx.receiver)) =
      ((chainTables (classOf ctx.receiver)).map (publicCount n)).sum) ∧
    (∀ n, (∀ t ∈ chainTables (classOf ctx.receiver), ∀ p ∈ t, p.1 = n →
        p.2.visibility = MethodVisibility.privateMethod) →
      countSymbol n (methodsChainSymbols (classOf ctx.receiver)) = 0) := by
  refine ⟨?_, ?_, ?_⟩
  · simp [kernelMethods, methodsChainSymbols_eq_flatten]
  · intro n
    rw [methodsChainSymbols_eq_flatten, countSymbol_flatten]
  · intro n h
    rw [methodsChainSymbols_eq_flatten, countSymbol_flatten]
    apply List.sum_eq_zero
    intro x hx
    simp only [List.mem_map] at hx
    obtain ⟨t, ht, rfl⟩ := hx
    exact publicCount_eq_zero_of_private n t (h t ht)

/-- Witness for C6: `methods` on an integer receiver lists exactly the
three public Kernel methods, in table order, and the private `puts`
never appears. -/
theorem c6_kernelMethods_witness :
    kernelMethods ⟨.integer 3, evalStub⟩ [] =
      .ok (.array [.symbol "nil?", .symbol "methods", .symbol "class"]) ∧
    countSymbol "puts" (methodsChainSymbols (classOf (.integer 3))) = 0 := by
  have h := c6_kernelMethods_public_walk ⟨.integer 3, evalStub⟩ []
  refine ⟨?_, h.2.2 "puts" (by decide)⟩
  rw [h.1]
  rfl

end Goruby
